import Mathlib

/-!
Shallow embedding of `src/pyalint.py` (a command-line wrapper that runs
`yamllint` and `actionlint` over workflow files and aggregates a pass/fail
exit code), together with theorems settling the frozen claims about it.

External effects (the filesystem, the two linter subprocesses, the YAML
parser used for the configuration file) are inputs of the embedded
functions: each subprocess outcome is a `ProcResult`, the parse outcome of
the configuration document is an `Except`, and the directory listing is a
list of file names.  Everything the script itself computes is translated
function by function from the source.
-/

namespace Pyalint

/-- A Python value as it can occur in the configuration dictionary
(`yaml.safe_load` output merged over `DEFAULT_CONFIG`). -/
inductive PyVal where
  | none
  | bool (b : Bool)
  | int (n : Int)
  | str (s : String)
  | list (elems : List PyVal)
  | dict (fields : List (String × PyVal))

/-- A Python `dict` with string keys, modelled as an association list
(Python dictionaries have unique keys; lookup takes the first match). -/
abbrev ConfigDict := List (String × PyVal)

/-- Python `d[k]` / `k in d` combined: first-match lookup in an
association list modelling a dict. -/
def dictGet (k : String) : ConfigDict → Option PyVal
  | [] => Option.none
  | (k', v) :: rest => if k' = k then Option.some v else dictGet k rest

/-- One entry of the left dictionary of a `{**d1, **d2}` merge: the value
is replaced by `d2`'s when `d2` also has the key. -/
def overrideEntry (d₂ : ConfigDict) (kv : String × PyVal) : String × PyVal :=
  match dictGet kv.1 d₂ with
  | Option.some v => (kv.1, v)
  | Option.none => kv

/-- Python `{**d1, **d2}` (src/pyalint.py line 35): every key of `d1`, its
value replaced by `d2`'s when `d2` also has the key, followed by the keys
of `d2` that `d1` lacks. -/
def dictMerge (d₁ d₂ : ConfigDict) : ConfigDict :=
  d₁.map (overrideEntry d₂) ++ d₂.filter fun kv => (dictGet kv.1 d₁).isNone

/-- `DEFAULT_CONFIG` (src/pyalint.py lines 12-21). -/
def DEFAULT_CONFIG : ConfigDict :=
  [("yamllint", PyVal.dict [("rules", PyVal.dict [("line-length", PyVal.str "disable")])]),
   ("actionlint", PyVal.dict [("flags", PyVal.list [])])]

/-- `load_config` (src/pyalint.py lines 23-39).  The argument stands for
the optional configuration file: `Option.none` when no `--config` path was
given, `Except.error e` when anything in the `try` block raised (the file
could not be opened, `yaml.safe_load` failed, or the loaded value was not
a mapping so the `{**, **}` merge raised), `Except.ok doc` when the
document parsed to the dictionary `doc`.  Returns the resolved
configuration and the lines printed. -/
def load_config : Option (Except String ConfigDict) → ConfigDict × List String
  | Option.none => (DEFAULT_CONFIG, [])
  | Option.some (Except.error e) =>
      (DEFAULT_CONFIG,
       ["⚠️ Error loading config file: " ++ e, "Using default configuration."])
  | Option.some (Except.ok doc) => (dictMerge DEFAULT_CONFIG doc, [])

/-- Outcome of one `subprocess.run(..., check=True)` call as seen by
`run_command`: normal completion with exit status 0, a
`CalledProcessError` carrying the nonzero exit code and the captured
output streams, or any other exception with its message. -/
inductive ProcResult where
  | completed (stdout : String)
  | calledProcessError (returncode : Int) (stdout : String) (stderr : String)
  | exn (msg : String)

/-- `run_command` (src/pyalint.py lines 55-84): the string it returns for
each subprocess outcome.  It never re-raises: a nonzero exit yields the
combined `stdout + stderr` (line 81), any other exception yields
`"Error: " ++ msg` (line 84). -/
def run_command : ProcResult → String
  | ProcResult.completed out => out
  | ProcResult.calledProcessError _ out err => out ++ err
  | ProcResult.exn msg => "Error: " ++ msg

/-- CPython `str.lower` on one character, for the ASCII range (the only
range the program's search string "error" involves): `A`-`Z` map to
`a`-`z`, everything else is unchanged. -/
def lowerChar (c : Char) : Char :=
  if 65 ≤ c.toNat && c.toNat ≤ 90 then Char.ofNat (c.toNat + 32) else c

/-- CPython `str.lower` (ASCII model), character by character. -/
def strLower (s : String) : String := ⟨s.data.map lowerChar⟩

/-- `needle` is a leading segment of `hay` (character lists). -/
def leadsWith : List Char → List Char → Bool
  | [], _ => true
  | _ :: _, [] => false
  | a :: as, b :: bs => a == b && leadsWith as bs

/-- Python `needle in hay` for strings, on character lists: some leading
position of `hay` starts with `needle`. -/
def containsSub (needle : List Char) : List Char → Bool
  | [] => needle.isEmpty
  | c :: rest => leadsWith needle (c :: rest) || containsSub needle rest

/-- Python `s.endswith(post)` on character lists; used to model
`Path.rglob("*.yml")` as a suffix filter on file names. -/
def listEndsWith (post l : List Char) : Bool := leadsWith post.reverse l.reverse

/-- `"error" in yamllint_output.lower()` (src/pyalint.py line 155). -/
def yamllintErrored (out : String) : Bool :=
  containsSub "error".data (strLower out).data

/-- A character CPython `str.strip()` removes (ASCII whitespace:
space, tab, newline, carriage return, vertical tab, form feed). -/
def isSpaceChar (c : Char) : Bool :=
  c == ' ' || c == '\t' || c == '\n' || c == '\r' || c.toNat == 11 || c.toNat == 12

/-- Python `s.strip()` (ASCII-whitespace model), as a character list. -/
def pyStrip (s : String) : List Char :=
  ((s.data.dropWhile isSpaceChar).reverse.dropWhile isSpaceChar).reverse

/-- A parsed JSON value as `json.loads` produces it.  A number literal is
kept exactly as the decimal `mantissa * 10 ^ scale` it spells; it denotes
zero (hence is falsy in Python, the only thing the aggregation logic ever
asks of a number) precisely when `mantissa = 0`. -/
inductive JsonVal where
  | null
  | bool (b : Bool)
  | num (mantissa : Int) (scale : Int)
  | str (s : String)
  | arr (elems : List JsonVal)
  | obj (fields : List (String × JsonVal))

/-- Python truthiness (`if parsed:`, src/pyalint.py line 163) of a value
returned by `json.loads`: `None`, `False`, zero, the empty string, the
empty list and the empty dict are falsy, everything else truthy. -/
def truthy : JsonVal → Bool
  | JsonVal.null => false
  | JsonVal.bool b => b
  | JsonVal.num mantissa _ => !(decide (mantissa = 0))
  | JsonVal.str s => !s.data.isEmpty
  | JsonVal.arr elems => !elems.isEmpty
  | JsonVal.obj fields => !fields.isEmpty

/-- The whitespace `json.loads` skips between tokens. -/
def isJsonWs (c : Char) : Bool :=
  c == ' ' || c == '\t' || c == '\n' || c == '\r'

/-- Drop leading JSON whitespace. -/
def skipWs (cs : List Char) : List Char := cs.dropWhile isJsonWs

/-- Decimal digits to a natural number. -/
def digitsToNat (ds : List Char) : Nat :=
  ds.foldl (fun a c => 10 * a + (c.toNat - 48)) 0

/-- Value of one hexadecimal digit, if it is one. -/
def hexVal (c : Char) : Option Nat :=
  if 48 ≤ c.toNat && c.toNat ≤ 57 then Option.some (c.toNat - 48)
  else if 97 ≤ c.toNat && c.toNat ≤ 102 then Option.some (c.toNat - 87)
  else if 65 ≤ c.toNat && c.toNat ≤ 70 then Option.some (c.toNat - 55)
  else Option.none

/-- The character a single-letter JSON string escape denotes, if valid. -/
def unescapeChar (c : Char) : Option Char :=
  if c == '\"' then Option.some '\"'
  else if c == '\\' then Option.some '\\'
  else if c == '/' then Option.some '/'
  else if c == 'b' then Option.some (Char.ofNat 8)
  else if c == 'f' then Option.some (Char.ofNat 12)
  else if c == 'n' then Option.some '\n'
  else if c == 'r' then Option.some '\r'
  else if c == 't' then Option.some '\t'
  else Option.none

/-- Body of a JSON string after the opening quote: the decoded characters
and the input remaining after the closing quote.  Control characters are
rejected as in strict `json.loads`; a `\uXXXX` escape outside the valid
`Char` range decodes to the null character (CPython keeps lone surrogates,
which `Char` cannot represent; the difference never affects truthiness,
the only thing the program reads off a parsed value). -/
def parseStringBody : List Char → Option (List Char × List Char)
  | [] => Option.none
  | '\"' :: rest => Option.some ([], rest)
  | '\\' :: 'u' :: h₁ :: h₂ :: h₃ :: h₄ :: rest => do
      let a ← hexVal h₁
      let b ← hexVal h₂
      let c ← hexVal h₃
      let d ← hexVal h₄
      let (s, r) ← parseStringBody rest
      Option.some (Char.ofNat (((a * 16 + b) * 16 + c) * 16 + d) :: s, r)
  | '\\' :: e :: rest => do
      let c ← unescapeChar e
      let (s, r) ← parseStringBody rest
      Option.some (c :: s, r)
  | c :: rest =>
      if c.toNat < 32 then Option.none
      else do
        let (s, r) ← parseStringBody rest
        Option.some (c :: s, r)

/-- A JSON number literal per the grammar `json.loads` uses:
`-? (0 | [1-9][0-9]*) (. [0-9]+)? ([eE] [+-]? [0-9]+)?`, consumed
greedily; returns its exact decimal value as `(mantissa, scale)` with the
remaining input. -/
def parseNumber (cs : List Char) : Option ((Int × Int) × List Char) :=
  let (neg, cs₁) := match cs with
    | '-' :: r => (true, r)
    | _ => (false, cs)
  match cs₁ with
  | [] => Option.none
  | c :: r =>
    if !c.isDigit then Option.none
    else
      let (intDs, rest₁) :=
        if c == '0' then ([c], r)
        else (c :: r.takeWhile Char.isDigit, r.dropWhile Char.isDigit)
      let (fracDs, rest₂) := match rest₁ with
        | '.' :: d :: r' =>
            if d.isDigit then (d :: r'.takeWhile Char.isDigit, r'.dropWhile Char.isDigit)
            else ([], rest₁)
        | _ => ([], rest₁)
      let (expOk, expNeg, expDs, rest₃) := match rest₂ with
        | e :: r' =>
            if e == 'e' || e == 'E' then
              match r' with
              | '+' :: d :: r'' =>
                  if d.isDigit then (true, false, d :: r''.takeWhile Char.isDigit, r''.dropWhile Char.isDigit)
                  else (true, false, [], rest₂)
              | '-' :: d :: r'' =>
                  if d.isDigit then (true, true, d :: r''.takeWhile Char.isDigit, r''.dropWhile Char.isDigit)
                  else (true, false, [], rest₂)
              | d :: r'' =>
                  if d.isDigit then (true, false, d :: r''.takeWhile Char.isDigit, r''.dropWhile Char.isDigit)
                  else (true, false, [], rest₂)
              | [] => (true, false, [], rest₂)
            else (false, false, [], rest₂)
        | [] => (false, false, [], rest₂)
      let _ := expOk
      if fracDs.isEmpty && (match rest₁ with | '.' :: _ => true | _ => false) &&
           !(match rest₁ with | '.' :: d :: _ => d.isDigit | _ => false) then
        -- a bare '.' after the integer part is left unconsumed, as the
        -- greedy regular-expression match does
        Option.some (numValue neg intDs [] false [], rest₁)
      else if !expDs.isEmpty then
        Option.some (numValue neg intDs fracDs expNeg expDs, rest₃)
      else
        Option.some (numValue neg intDs fracDs false [], rest₂)
where
  /-- Exact decimal value of a parsed number, as `(mantissa, scale)` with
  the denoted number equal to `mantissa * 10 ^ scale`. -/
  numValue (neg : Bool) (intDs fracDs : List Char) (expNeg : Bool) (expDs : List Char) :
      Int × Int :=
    let m : Int := Int.ofNat (digitsToNat intDs * 10 ^ fracDs.length + digitsToNat fracDs)
    let e : Int :=
      (if expNeg then -Int.ofNat (digitsToNat expDs) else Int.ofNat (digitsToNat expDs))
        - Int.ofNat fracDs.length
    (if neg then -m else m, e)

mutual

/-- One JSON value starting at the current input (leading whitespace
allowed), with the remaining input.  `fuel` bounds the recursion depth;
`loads` supplies more fuel than any input of its length can use. -/
def parseVal : Nat → List Char → Option (JsonVal × List Char)
  | 0, _ => Option.none
  | Nat.succ fuel, cs =>
    match skipWs cs with
    | [] => Option.none
    | 'n' :: 'u' :: 'l' :: 'l' :: r => Option.some (JsonVal.null, r)
    | 't' :: 'r' :: 'u' :: 'e' :: r => Option.some (JsonVal.bool true, r)
    | 'f' :: 'a' :: 'l' :: 's' :: 'e' :: r => Option.some (JsonVal.bool false, r)
    | '\"' :: r => do
        let (s, r') ← parseStringBody r
        Option.some (JsonVal.str ⟨s⟩, r')
    | '[' :: r =>
        (match skipWs r with
         | ']' :: r' => Option.some (JsonVal.arr [], r')
         | _ => do
             let (elems, r') ← parseArrItems fuel r
             Option.some (JsonVal.arr elems, r'))
    | c :: r =>
        if c == Char.ofNat 123 then
          match skipWs r with
          | c' :: r' =>
              if c' == Char.ofNat 125 then Option.some (JsonVal.obj [], r')
              else do
                let (fields, r'') ← parseObjItems fuel (c' :: r')
                Option.some (JsonVal.obj fields, r'')
          | [] => Option.none
        else if c.isDigit || c == '-' then do
          let (q, r') ← parseNumber (c :: r)
          Option.some (JsonVal.num q.1 q.2, r')
        else Option.none

/-- Comma-separated JSON values up to a closing `]`. -/
def parseArrItems : Nat → List Char → Option (List JsonVal × List Char)
  | 0, _ => Option.none
  | Nat.succ fuel, cs => do
      let (v, r) ← parseVal fuel cs
      match skipWs r with
      | ',' :: r' => do
          let (vs, r'') ← parseArrItems fuel r'
          Option.some (v :: vs, r'')
      | ']' :: r' => Option.some ([v], r')
      | _ => Option.none

/-- Comma-separated `"key": value` pairs up to a closing brace. -/
def parseObjItems : Nat → List Char → Option (List (String × JsonVal) × List Char)
  | 0, _ => Option.none
  | Nat.succ fuel, cs =>
    match skipWs cs with
    | '\"' :: r => do
        let (k, r₁) ← parseStringBody r
        match skipWs r₁ with
        | ':' :: r₂ => do
            let (v, r₃) ← parseVal fuel r₂
            match skipWs r₃ with
            | ',' :: r₄ => do
                let (fields, r₅) ← parseObjItems fuel r₄
                Option.some ((⟨k⟩, v) :: fields, r₅)
            | c :: r₄ =>
                if c == Char.ofNat 125 then Option.some ([(⟨k⟩, v)], r₄)
                else Option.none
            | [] => Option.none
        | _ => Option.none
    | _ => Option.none

end

/-- `json.loads` (src/pyalint.py line 162): parse one JSON document,
requiring nothing but whitespace after it; `Option.none` is a
`JSONDecodeError`. -/
def loads (s : String) : Option JsonVal :=
  match parseVal (2 * s.data.length + 4) s.data with
  | Option.some (v, rest) => if (skipWs rest).isEmpty then Option.some v else Option.none
  | Option.none => Option.none

/-- Lines 160-173 of src/pyalint.py: whether the actionlint output for
one file sets `has_errors`.  In JSON mode the output is parsed: a truthy
parse means issues, a `JSONDecodeError` is also counted as an error
(lines 166-169); in text mode any non-blank output counts (line 172). -/
def actionlintErrored (jsonMode : Bool) (out : String) : Bool :=
  if jsonMode then
    match loads out with
    | Option.some parsed => truthy parsed
    | Option.none => true
  else !(pyStrip out).isEmpty

/-- One iteration of the per-file loop (src/pyalint.py lines 149-173),
acting on the `has_errors` flag: first the yamllint check (line 155),
then the actionlint check (lines 160-173).  The pair holds the two
linters' outputs for the file. -/
def checkFile (jsonMode : Bool) (hasErrors : Bool) (outs : String × String) : Bool :=
  let hasErrors := hasErrors || yamllintErrored outs.1
  hasErrors || actionlintErrored jsonMode outs.2

/-- The whole per-file loop: fold `checkFile` over the files' linter
outputs starting from `has_errors = False` (line 130). -/
def processFiles (jsonMode : Bool) (outs : List (String × String)) : Bool :=
  (outs.foldl (checkFile jsonMode) false)

/-- Lines 149-180 of src/pyalint.py: run the loop, then return 1 when
`has_errors` is set and 0 otherwise. -/
def runChecks (jsonMode : Bool) (outs : List (String × String)) : Int :=
  if processFiles jsonMode outs then 1 else 0

/-- `find_workflow_files` (src/pyalint.py lines 51-53): `rglob("*.yml")`
then `rglob("*.yaml")` over the directory tree, modelled as suffix
filters over the recursive listing of file names. -/
def find_workflow_files (entries : List String) : List String :=
  entries.filter (fun e => listEndsWith ".yml".data e.data)
    ++ entries.filter (fun e => listEndsWith ".yaml".data e.data)

/-- Lines 129-147 of src/pyalint.py: decide which files to check, or end
the run early.  `fileArg` is `args.file`; `fileArgOk` is
`target.exists() and target.is_file()`; `dirExists` is
`Path(".github/workflows").exists()`; `found` is the
`find_workflow_files` result.  `Except.error (code, msgs)` is an early
`return code` after printing `msgs`, before any linter runs. -/
def selectFiles (fileArg : Option String) (fileArgOk : Bool) (dirExists : Bool)
    (found : List String) : Except (Int × List String) (List String) :=
  let chosen : Except (Int × List String) (List String) :=
    match fileArg with
    | Option.some f =>
        if fileArgOk then Except.ok [f]
        else Except.error (1, ["❌ Specified file does not exist: " ++ f])
    | Option.none =>
        if dirExists then Except.ok found
        else Except.error (0, ["⚠️ .github/workflows directory not found."])
  match chosen with
  | Except.error e => Except.error e
  | Except.ok files =>
      if files.isEmpty then Except.error (0, ["⚠️ No workflow files found."])
      else Except.ok files

/-- The two linter subprocesses as the run sees them: the output text
`run_command` hands back for each file (yamllint via `lint_yaml`,
actionlint via `lint_action`). -/
structure LintOracle where
  yam : String → String
  act : String → String

/-- `main` (src/pyalint.py lines 111-180) after argument and
configuration handling: the exit code, paired with the number of linter
subprocesses invoked (two per checked file, none on an early return). -/
def mainScript (fileArg : Option String) (fileArgOk : Bool) (dirExists : Bool)
    (dirEntries : List String) (jsonMode : Bool) (oc : LintOracle) : Int × Nat :=
  match selectFiles fileArg fileArgOk dirExists (find_workflow_files dirEntries) with
  | Except.error (code, _) => (code, 0)
  | Except.ok files =>
      (runChecks jsonMode (files.map fun f => (oc.yam f, oc.act f)), 2 * files.length)

/-! ## Helper lemmas -/

theorem leadsWith_self_append : ∀ (n t : List Char), leadsWith n (n ++ t) = true
  | [], _ => rfl
  | a :: as, t => by
      show (a == a && leadsWith as (as ++ t)) = true
      rw [leadsWith_self_append as t]
      simp

theorem containsSub_self_append (n t : List Char) : containsSub n (n ++ t) = true := by
  cases n with
  | nil => cases t <;> rfl
  | cons a as =>
      show (leadsWith (a :: as) (a :: (as ++ t)) || containsSub (a :: as) (as ++ t)) = true
      have h := leadsWith_self_append (a :: as) t
      rw [List.cons_append] at h
      rw [h, Bool.true_or]

theorem containsSub_append (n : List Char) : ∀ (pre post : List Char),
    containsSub n (pre ++ (n ++ post)) = true
  | [], post => by rw [List.nil_append]; exact containsSub_self_append n post
  | p :: ps, post => by
      show (leadsWith n (p :: (ps ++ (n ++ post))) || containsSub n (ps ++ (n ++ post))) = true
      rw [containsSub_append n ps post, Bool.or_true]

/-- If `y` has a substring whose (ASCII) lowercasing is `"error"`, the
yamllint check of src/pyalint.py line 155 classifies `y` as erroring. -/
theorem yamllintErrored_of_part (y w : String) (pre post : List Char)
    (hd : y.data = pre ++ w.data ++ post) (hw : strLower w = "error") :
    yamllintErrored y = true := by
  show containsSub "error".data (strLower y).data = true
  have hw' : w.data.map lowerChar = "error".data := congrArg String.data hw
  have hmap : (strLower y).data
      = pre.map lowerChar ++ ("error".data ++ post.map lowerChar) := by
    show y.data.map lowerChar = _
    rw [hd, List.map_append, List.map_append, hw', List.append_assoc]
  rw [hmap]
  exact containsSub_append _ _ _

theorem checkFile_of_true (jm : Bool) (x : String × String) :
    checkFile jm true x = true := by
  simp [checkFile]

theorem foldl_checkFile_true (jm : Bool) : ∀ (outs : List (String × String)),
    outs.foldl (checkFile jm) true = true
  | [] => rfl
  | x :: xs => by
      rw [List.foldl_cons, checkFile_of_true jm x]
      exact foldl_checkFile_true jm xs

theorem foldl_checkFile_shift (jm : Bool) : ∀ (outs : List (String × String)) (b : Bool),
    outs.foldl (checkFile jm) b = (b || outs.foldl (checkFile jm) false)
  | [], b => by simp
  | x :: xs, b => by
      rw [List.foldl_cons, List.foldl_cons,
        foldl_checkFile_shift jm xs (checkFile jm b x),
        foldl_checkFile_shift jm xs (checkFile jm false x)]
      have hstep : checkFile jm b x = (b || checkFile jm false x) := by
        simp only [checkFile, Bool.false_or]
        exact Bool.or_assoc b (yamllintErrored x.1) (actionlintErrored jm x.2)
      rw [hstep, Bool.or_assoc]

theorem processFiles_append (jm : Bool) (l₁ l₂ : List (String × String)) :
    processFiles jm (l₁ ++ l₂) = (processFiles jm l₁ || processFiles jm l₂) := by
  show (l₁ ++ l₂).foldl (checkFile jm) false = _
  rw [List.foldl_append]
  exact foldl_checkFile_shift jm l₂ (l₁.foldl (checkFile jm) false)

theorem processFiles_true_of_mem (jm : Bool) (outs : List (String × String))
    (x : String × String) (hx : x ∈ outs)
    (hx2 : (yamllintErrored x.1 || actionlintErrored jm x.2) = true) :
    processFiles jm outs = true := by
  obtain ⟨s, t, rfl⟩ := List.append_of_mem hx
  rw [processFiles_append]
  have hxt : processFiles jm (x :: t) = true := by
    show (x :: t).foldl (checkFile jm) false = true
    rw [List.foldl_cons]
    have hcf : checkFile jm false x = true := by
      simp only [checkFile, Bool.false_or]
      exact hx2
    rw [hcf]
    exact foldl_checkFile_true jm t
  rw [hxt, Bool.or_true]

theorem dictGet_cons (k : String) (p : String × PyVal) (t : ConfigDict) :
    dictGet k (p :: t) = if p.1 = k then Option.some p.2 else dictGet k t := by
  cases p
  rfl

theorem overrideEntry_fst (d₂ : ConfigDict) (kv : String × PyVal) :
    (overrideEntry d₂ kv).1 = kv.1 := by
  unfold overrideEntry
  cases dictGet kv.1 d₂ <;> rfl

theorem dictGet_map_override_none (k : String) (d₂ : ConfigDict) :
    ∀ (d₁ : ConfigDict), dictGet k d₁ = Option.none →
      dictGet k (d₁.map (overrideEntry d₂)) = Option.none := by
  intro d₁
  induction d₁ with
  | nil => intro _; rfl
  | cons p rest ih =>
      intro h
      rw [dictGet_cons] at h
      rw [List.map_cons, dictGet_cons, overrideEntry_fst]
      by_cases hk : p.1 = k
      · rw [if_pos hk] at h
        cases h
      · rw [if_neg hk] at h
        rw [if_neg hk]
        exact ih h

theorem dictGet_map_override_some (k : String) (d₂ : ConfigDict) :
    ∀ (d₁ : ConfigDict) (w : PyVal), dictGet k d₁ = Option.some w →
      dictGet k (d₁.map (overrideEntry d₂))
        = (match dictGet k d₂ with
           | Option.some v => Option.some v
           | Option.none => Option.some w) := by
  intro d₁
  induction d₁ with
  | nil => intro w h; cases h
  | cons p rest ih =>
      intro w h
      rw [dictGet_cons] at h
      rw [List.map_cons, dictGet_cons, overrideEntry_fst]
      by_cases hk : p.1 = k
      · rw [if_pos hk] at h
        rw [if_pos hk]
        show Option.some (overrideEntry d₂ p).2 = _
        unfold overrideEntry
        rw [hk]
        cases hd2 : dictGet k d₂ with
        | some v => rfl
        | none => exact h
      · rw [if_neg hk] at h
        rw [if_neg hk]
        exact ih w h

theorem dictGet_filter_new (k : String) (d₁ : ConfigDict)
    (h : dictGet k d₁ = Option.none) :
    ∀ (d₂ : ConfigDict),
      dictGet k (d₂.filter fun kv => (dictGet kv.1 d₁).isNone) = dictGet k d₂ := by
  intro d₂
  induction d₂ with
  | nil => rfl
  | cons p rest ih =>
      rw [List.filter_cons]
      by_cases hk : p.1 = k
      · have hp : ((dictGet p.1 d₁).isNone : Bool) = true := by rw [hk, h]; rfl
        rw [if_pos hp, dictGet_cons, dictGet_cons, if_pos hk, if_pos hk]
      · cases hp : ((dictGet p.1 d₁).isNone : Bool) with
        | true =>
            rw [if_pos rfl, dictGet_cons, dictGet_cons, if_neg hk, if_neg hk]
            exact ih
        | false =>
            rw [if_neg (by simp), dictGet_cons, if_neg hk]
            exact ih

theorem dictGet_append (k : String) : ∀ (l₁ l₂ : ConfigDict),
    dictGet k (l₁ ++ l₂)
      = (match dictGet k l₁ with
         | Option.some v => Option.some v
         | Option.none => dictGet k l₂) := by
  intro l₁ l₂
  induction l₁ with
  | nil => rfl
  | cons p rest ih =>
      rw [List.cons_append, dictGet_cons, dictGet_cons]
      by_cases hk : p.1 = k
      · rw [if_pos hk, if_pos hk]
      · rw [if_neg hk, if_neg hk, ih]

/-- Lookup in a `{**d1, **d2}` merge: keys present in `d2` take `d2`'s
value wholesale, keys absent from `d2` keep `d1`'s value. -/
theorem dictGet_dictMerge (k : String) (d₁ d₂ : ConfigDict) :
    dictGet k (dictMerge d₁ d₂)
      = (match dictGet k d₂ with
         | Option.some v => Option.some v
         | Option.none => dictGet k d₁) := by
  unfold dictMerge
  rw [dictGet_append]
  cases h1 : dictGet k d₁ with
  | none =>
      rw [dictGet_map_override_none k d₂ d₁ h1, dictGet_filter_new k d₁ h1 d₂]
      cases hd2 : dictGet k d₂ <;> rfl
  | some w =>
      rw [dictGet_map_override_some k d₂ d₁ w h1]
      cases hd2 : dictGet k d₂ <;> rfl

theorem find_workflow_files_nil (entries : List String)
    (h : ∀ e ∈ entries, listEndsWith ".yml".data e.data = false ∧
      listEndsWith ".yaml".data e.data = false) :
    find_workflow_files entries = [] := by
  unfold find_workflow_files
  have h1 : entries.filter (fun e => listEndsWith ".yml".data e.data) = [] := by
    rw [List.filter_eq_nil_iff]
    intro a ha
    simp [(h a ha).1]
  have h2 : entries.filter (fun e => listEndsWith ".yaml".data e.data) = [] := by
    rw [List.filter_eq_nil_iff]
    intro a ha
    simp [(h a ha).2]
  rw [h1, h2]
  rfl

/-! ## Claim theorems -/

/-- Claim C1: for every yamllint output string that contains the word
"error" in any letter-casing (some substring lowercases to "error"), the
per-file check is classified as failing and the program's final exit code
is 1, even when actionlint produces no output for every file. -/
theorem yamllint_error_word_forces_exit_one (yOut : String)
    (hword : ∃ (w : String) (pre post : List Char),
      yOut.data = pre ++ w.data ++ post ∧ strLower w = "error")
    (entries : List String) (f : String) (hf : f ∈ find_workflow_files entries)
    (oc : LintOracle) (hy : oc.yam f = yOut) (ha : ∀ g, oc.act g = "")
    (jm fileArgOk : Bool) :
    yamllintErrored yOut = true ∧
    (mainScript Option.none fileArgOk true entries jm oc).1 = 1 := by
  have hyerr : yamllintErrored yOut = true := by
    obtain ⟨w, pre, post, hd, hw⟩ := hword
    exact yamllintErrored_of_part yOut w pre post hd hw
  refine ⟨hyerr, ?_⟩
  cases hE : find_workflow_files entries with
  | nil => rw [hE] at hf; cases hf
  | cons a l =>
      rw [hE] at hf
      unfold mainScript
      rw [hE]
      show runChecks jm ((a :: l).map fun g => (oc.yam g, oc.act g)) = 1
      have hmem : (oc.yam f, oc.act f) ∈ (a :: l).map (fun g => (oc.yam g, oc.act g)) :=
        List.mem_map_of_mem _ hf
      have hpf : processFiles jm ((a :: l).map fun g => (oc.yam g, oc.act g)) = true := by
        refine processFiles_true_of_mem jm _ _ hmem ?_
        show (yamllintErrored (oc.yam f) || actionlintErrored jm (oc.act f)) = true
        rw [hy, hyerr, Bool.true_or]
      show (if processFiles jm ((a :: l).map fun g => (oc.yam g, oc.act g)) then (1 : Int) else 0) = 1
      rw [hpf, if_pos rfl]

theorem yamllint_error_word_forces_exit_one_witness :
    yamllintErrored "Error: x" = true ∧
    (mainScript Option.none false true ["a.yml"] false
        ⟨fun _ => "Error: x", fun _ => ""⟩).1 = 1 :=
  yamllint_error_word_forces_exit_one "Error: x"
    ⟨"Error", [], ": x".data, by decide, by decide⟩
    ["a.yml"] "a.yml" (by decide)
    ⟨fun _ => "Error: x", fun _ => ""⟩ rfl (fun _ => rfl) false false

/-- Claim C2: in JSON mode, actionlint output `[]` (a valid, empty JSON
array) is classified as success; valid JSON denoting a non-empty array is
classified as failure; text that is not valid JSON is classified as a
lint failure (not a crash). -/
theorem json_mode_actionlint_classification :
    (loads "[]" = Option.some (JsonVal.arr []) ∧ actionlintErrored true "[]" = false) ∧
    (∀ (s : String) (elems : List JsonVal),
      loads s = Option.some (JsonVal.arr elems) → elems ≠ [] →
      actionlintErrored true s = true) ∧
    (∀ s : String, loads s = Option.none → actionlintErrored true s = true) := by
  refine ⟨⟨rfl, rfl⟩, ?_, ?_⟩
  · intro s elems h hne
    cases elems with
    | nil => exact absurd rfl hne
    | cons e es => simp [actionlintErrored, h, truthy]
  · intro s h
    simp [actionlintErrored, h]

theorem json_mode_actionlint_classification_witness :
    actionlintErrored true "[\x7b\"a\":\"b\"\x7d]" = true :=
  json_mode_actionlint_classification.2.1 "[\x7b\"a\":\"b\"\x7d]"
    [JsonVal.obj [("a", JsonVal.str "b")]] rfl (by simp)

/-- Claim C3: for every configuration document that cannot be parsed (the
`try` block raises), `load_config` returns exactly the built-in default
configuration, prints a warning, and never fails: no partial merge
occurs. -/
theorem unparsable_config_falls_back_to_defaults (e : String) :
    load_config (Option.some (Except.error e))
      = (DEFAULT_CONFIG,
         ["⚠️ Error loading config file: " ++ e, "Using default configuration."]) := rfl

/-- Claim C4: for every successfully parsed configuration document, a
top-level key ("yamllint" or "actionlint") missing from the document
keeps the default value, and any top-level key present in the document
replaces the default value wholesale (shallow merge). -/
theorem shallow_merge_keeps_and_replaces (doc : ConfigDict) :
    (dictGet "yamllint" doc = Option.none →
      dictGet "yamllint" (load_config (Option.some (Except.ok doc))).1
        = dictGet "yamllint" DEFAULT_CONFIG) ∧
    (dictGet "actionlint" doc = Option.none →
      dictGet "actionlint" (load_config (Option.some (Except.ok doc))).1
        = dictGet "actionlint" DEFAULT_CONFIG) ∧
    (∀ (k : String) (v : PyVal), dictGet k doc = Option.some v →
      dictGet k (load_config (Option.some (Except.ok doc))).1 = Option.some v) := by
  refine ⟨?_, ?_, ?_⟩
  · intro h
    show dictGet "yamllint" (dictMerge DEFAULT_CONFIG doc) = dictGet "yamllint" DEFAULT_CONFIG
    rw [dictGet_dictMerge, h]
  · intro h
    show dictGet "actionlint" (dictMerge DEFAULT_CONFIG doc) = dictGet "actionlint" DEFAULT_CONFIG
    rw [dictGet_dictMerge, h]
  · intro k v h
    show dictGet k (dictMerge DEFAULT_CONFIG doc) = Option.some v
    rw [dictGet_dictMerge, h]

theorem shallow_merge_keeps_and_replaces_witness :
    dictGet "yamllint"
        (load_config (Option.some (Except.ok [("actionlint", PyVal.list [])]))).1
      = dictGet "yamllint" DEFAULT_CONFIG ∧
    dictGet "actionlint"
        (load_config (Option.some (Except.ok [("actionlint", PyVal.list [])]))).1
      = Option.some (PyVal.list []) :=
  ⟨(shallow_merge_keeps_and_replaces [("actionlint", PyVal.list [])]).1 rfl,
   (shallow_merge_keeps_and_replaces [("actionlint", PyVal.list [])]).2.2
     "actionlint" (PyVal.list []) rfl⟩

/-- Claim C5: for every explicit single-file argument whose path does not
exist (or is not a regular file), the program reports an error, exits
with code 1, and invokes no linter subprocess. -/
theorem missing_explicit_file_exits_one (f : String) (dirExists : Bool)
    (entries : List String) (jm : Bool) (oc : LintOracle) :
    mainScript (Option.some f) false dirExists entries jm oc = (1, 0) ∧
    selectFiles (Option.some f) false dirExists (find_workflow_files entries)
      = Except.error (1, ["❌ Specified file does not exist: " ++ f]) :=
  ⟨rfl, rfl⟩

/-- Claim C6: with no explicit file argument, if the workflow directory
is absent, or present but without any `.yml`/`.yaml` file, the program
prints a warning, exits with code 0, and invokes no linter subprocess. -/
theorem no_workflow_files_exits_zero (fileArgOk : Bool) (entries : List String)
    (jm : Bool) (oc : LintOracle) :
    (mainScript Option.none fileArgOk false entries jm oc = (0, 0) ∧
      selectFiles Option.none fileArgOk false (find_workflow_files entries)
        = Except.error (0, ["⚠️ .github/workflows directory not found."])) ∧
    ((∀ e ∈ entries, listEndsWith ".yml".data e.data = false ∧
        listEndsWith ".yaml".data e.data = false) →
      find_workflow_files entries = [] ∧
      mainScript Option.none fileArgOk true entries jm oc = (0, 0) ∧
      selectFiles Option.none fileArgOk true (find_workflow_files entries)
        = Except.error (0, ["⚠️ No workflow files found."])) := by
  refine ⟨⟨rfl, rfl⟩, ?_⟩
  intro h
  have hnil : find_workflow_files entries = [] := find_workflow_files_nil entries h
  refine ⟨hnil, ?_, ?_⟩
  · unfold mainScript
    rw [hnil]
    rfl
  · rw [hnil]
    rfl

theorem no_workflow_files_exits_zero_witness :
    find_workflow_files ["README.md"] = [] ∧
    mainScript Option.none false true ["README.md"] false
        ⟨fun _ => "", fun _ => ""⟩ = (0, 0) ∧
    selectFiles Option.none false true (find_workflow_files ["README.md"])
      = Except.error (0, ["⚠️ No workflow files found."]) :=
  (no_workflow_files_exits_zero false ["README.md"] false
      ⟨fun _ => "", fun _ => ""⟩).2 (by decide)

/-- Claim C7: a subprocess completing with a nonzero exit code does not
raise or abort the run: `run_command` returns the combined stdout+stderr
text, and the loop keeps processing the remaining tools and files (the
aggregate over a run is the aggregate of its parts). -/
theorem nonzero_exit_is_tolerated :
    (∀ (code : Int) (out err : String),
      run_command (ProcResult.calledProcessError code out err) = out ++ err) ∧
    (∀ (jm : Bool) (l₁ l₂ : List (String × String)),
      processFiles jm (l₁ ++ l₂) = (processFiles jm l₁ || processFiles jm l₂)) :=
  ⟨fun _ _ _ => rfl, processFiles_append⟩

/-- Claim C8: the aggregate `has_errors` flag is monotone over the
per-file loop: once any file's yamllint or actionlint result errors, the
final exit code is 1 no matter how many later files are clean, and the
flag is never reset by a loop step. -/
theorem has_errors_flag_is_monotone :
    (∀ (jm : Bool) (l₁ : List (String × String)) (x : String × String)
        (l₂ : List (String × String)),
      (yamllintErrored x.1 || actionlintErrored jm x.2) = true →
      processFiles jm (l₁ ++ x :: l₂) = true ∧ runChecks jm (l₁ ++ x :: l₂) = 1) ∧
    (∀ (jm b : Bool) (x : String × String), b = true → checkFile jm b x = true) := by
  constructor
  · intro jm l₁ x l₂ hx
    have hmem : x ∈ l₁ ++ x :: l₂ := List.mem_append_right l₁ (List.mem_cons_self x l₂)
    have hpf := processFiles_true_of_mem jm (l₁ ++ x :: l₂) x hmem hx
    refine ⟨hpf, ?_⟩
    show (if processFiles jm (l₁ ++ x :: l₂) then (1 : Int) else 0) = 1
    rw [hpf, if_pos rfl]
  · intro jm b x hb
    rw [hb]
    exact checkFile_of_true jm x

theorem has_errors_flag_is_monotone_witness :
    processFiles false ([] ++ ("error", "") :: [("", "")]) = true ∧
    runChecks false ([] ++ ("error", "") :: [("", "")]) = 1 :=
  has_errors_flag_is_monotone.1 false [] ("error", "") [("", "")] (by decide)

/-- Claim C9: for any subprocess launch failure other than a nonzero
exit code, `run_command` returns `"Error: "` followed by the exception
message, and the case-insensitive "error" substring check then always
classifies the yamllint step as erroring. -/
theorem exception_string_always_errors (msg : String) :
    run_command (ProcResult.exn msg) = "Error: " ++ msg ∧
    yamllintErrored (run_command (ProcResult.exn msg)) = true := by
  refine ⟨rfl, ?_⟩
  show containsSub "error".data (strLower ("Error: " ++ msg)).data = true
  have h1 : (strLower ("Error: " ++ msg)).data
      = "error".data ++ (": ".data ++ msg.data.map lowerChar) := by
    show ("Error: " ++ msg).data.map lowerChar = _
    rw [String.data_append, List.map_append]
    have h2 : ("Error: ".data).map lowerChar = "error".data ++ ": ".data := by decide
    rw [h2, List.append_assoc]
  rw [h1]
  have h3 := containsSub_append "error".data [] (": ".data ++ msg.data.map lowerChar)
  rw [List.nil_append] at h3
  exact h3

/-- Claim C10: in JSON mode, every actionlint output string that parses
as valid JSON to a falsy value — the empty object, `null`, `0`, `false`,
or the empty JSON string — is classified as success, even though the raw
output text is non-empty. -/
theorem falsy_json_is_success :
    (∀ (s : String) (v : JsonVal), loads s = Option.some v → truthy v = false →
      actionlintErrored true s = false) ∧
    (loads "\x7b\x7d" = Option.some (JsonVal.obj [])
      ∧ actionlintErrored true "\x7b\x7d" = false ∧ ("\x7b\x7d" : String) ≠ "") ∧
    (loads "null" = Option.some JsonVal.null
      ∧ actionlintErrored true "null" = false ∧ ("null" : String) ≠ "") ∧
    (loads "0" = Option.some (JsonVal.num 0 0)
      ∧ actionlintErrored true "0" = false ∧ ("0" : String) ≠ "") ∧
    (loads "false" = Option.some (JsonVal.bool false)
      ∧ actionlintErrored true "false" = false ∧ ("false" : String) ≠ "") ∧
    (loads "\"\"" = Option.some (JsonVal.str "")
      ∧ actionlintErrored true "\"\"" = false ∧ ("\"\"" : String) ≠ "") := by
  refine ⟨?_, ⟨rfl, rfl, by decide⟩, ⟨rfl, rfl, by decide⟩, ⟨rfl, rfl, by decide⟩,
    ⟨rfl, rfl, by decide⟩, ⟨rfl, rfl, by decide⟩⟩
  intro s v h ht
  simp [actionlintErrored, h, ht]

theorem falsy_json_is_success_witness :
    actionlintErrored true "null" = false :=
  falsy_json_is_success.1 "null" JsonVal.null rfl rfl

end Pyalint
